import Mathlib

/-!
Shallow embedding of the WordRush word-guessing bot's core game logic
(from src/main.py): the Wordle-style feedback evaluator `get_feedback`,
the scoring function `calculate_points`, the word pool `WORDS_BY_LENGTH`
built from `RAW_WORDS`, and the session operations `start_new_game_logic`
and `process_guess_logic` over an abstract session store standing for the
MongoDB active_games collection accessed through `get_game_state`,
`save_game_state` and `delete_game_state`.

Python strings are modelled as lists of natural-number character codes
(the bot's guess filter admits only ASCII letters); Python `int` is
modelled as `Int` wherever subtraction or negativity matters.
-/

/-- One character of a Python string, as its (ASCII) code point. -/
abbrev Letter := Nat

/-- A Python string, as its list of character codes. -/
abbrev Word := List Letter

/-- The `Word` denoted by a Lean string literal. -/
def strToW (s : String) : Word := s.data.map Char.toNat

/-- ASCII uppercasing of one character: Python `str.upper` restricted to
the ASCII letters that the bot's guess regex `[a-zA-Z]{1,8}` admits. -/
def upperC (c : Nat) : Nat := if 97 ≤ c ∧ c ≤ 122 then c - 32 else c

/-- Python `str.upper` on a word (characterwise, ASCII). -/
def upperW (w : Word) : Word := w.map upperC

/-- ASCII lowercasing of one character (Python `str.lower`). -/
def lowerC (c : Nat) : Nat := if 65 ≤ c ∧ c ≤ 90 then c + 32 else c

/-- Python `str.lower` on a word (characterwise, ASCII). -/
def lowerW (w : Word) : Word := w.map lowerC

/-- Per-position verdict of the evaluator: in src/main.py the feedback
string holds one of the three blocks 🟩 (Hit: correct position),
🟨 (Present: correct letter, wrong position), 🟥 (Miss). -/
inductive Verdict
  | Hit
  | Present
  | Miss
deriving DecidableEq, Repr

/-- The `remaining_letters` dict of `get_feedback` (main.py lines 204-207),
as a total function: the loop builds letter ↦ number of occurrences in
`secret_word`, which is `secret.count c` on the dict's keys; characters
that are not keys are mapped to 0 (the dict-membership test of the second
pass is modelled separately via `secret.contains`). -/
def initCounts (secret : Word) : Letter → Int := fun c => (secret.count c : Int)

/-- One `remaining_letters[c] -= 1` update. -/
def decr (rem : Letter → Int) (c : Letter) : Letter → Int :=
  fun x => if x = c then rem x - 1 else rem x

/-- First pass of `get_feedback` (main.py lines 209-213): walk the indices
of `secret_word` in order; where the guess still has a character
(`i < len(guess)`) and it equals the secret's character, record 🟩 and
decrement that letter's count; elsewhere the initialised 🟥 stays. Returns
the feedback array after the pass together with the updated dict. -/
def pass1 : Word → Word → (Letter → Int) → List Verdict × (Letter → Int)
  | [], _, rem => ([], rem)
  | _ :: ss, [], rem =>
      (Verdict.Miss :: (pass1 ss [] rem).1, (pass1 ss [] rem).2)
  | s :: ss, g :: gs, rem =>
      if g = s then
        (Verdict.Hit :: (pass1 ss gs (decr rem g)).1, (pass1 ss gs (decr rem g)).2)
      else
        (Verdict.Miss :: (pass1 ss gs rem).1, (pass1 ss gs rem).2)

/-- Second pass of `get_feedback` (main.py lines 215-221): for each index
still 🟥 and in range of the guess, if the guessed letter is a key of
`remaining_letters` (i.e. occurs in the secret) with positive remaining
count, record 🟨 and decrement; otherwise leave 🟥. Indices past the end
of the guess keep their pass-1 verdict. -/
def pass2 (secret : Word) : List Verdict → Word → (Letter → Int) → List Verdict
  | [], _, _ => []
  | f :: fs, [], rem => f :: pass2 secret fs [] rem
  | f :: fs, g :: gs, rem =>
      if f = Verdict.Miss then
        if secret.contains g ∧ rem g > 0 then
          Verdict.Present :: pass2 secret fs gs (decr rem g)
        else
          Verdict.Miss :: pass2 secret fs gs rem
      else
        f :: pass2 secret fs gs rem

/-- `get_feedback(secret_word, guess)` of main.py lines 200-223, with the
emoji-block string abstracted to the `Verdict` list it spells. -/
def get_feedback (secret guess : Word) : List Verdict :=
  let start := pass1 secret guess (initCounts secret)
  pass2 secret start.1 guess start.2

/-- First pass exactly as the specification words it (spec §4.2 step 3):
for each index i, if guess[i] == secret[i], mark Hit and decrement that
letter's count in the multiset. The spec presupposes equal lengths. -/
def specPass1 : Word → Word → (Letter → Int) → List Verdict × (Letter → Int)
  | s :: ss, g :: gs, rem =>
      if g = s then
        (Verdict.Hit :: (specPass1 ss gs (decr rem g)).1, (specPass1 ss gs (decr rem g)).2)
      else
        (Verdict.Miss :: (specPass1 ss gs rem).1, (specPass1 ss gs rem).2)
  | _, _, rem => ([], rem)

/-- Second pass exactly as the specification words it (spec §4.2 step 4):
for each index not already Hit, if the guessed letter's count in the
remaining multiset is > 0, mark Present and decrement; otherwise Miss.
A multiset's count of an absent element is 0. -/
def specPass2 : List Verdict → Word → (Letter → Int) → List Verdict
  | f :: fs, g :: gs, rem =>
      if f = Verdict.Miss then
        if rem g > 0 then
          Verdict.Present :: specPass2 fs gs (decr rem g)
        else
          Verdict.Miss :: specPass2 fs gs rem
      else
        f :: specPass2 fs gs rem
  | _, _, _ => []

/-- Modelled from the spec's words (§4.2): the exact two-pass Wordle
algorithm, to be compared with `get_feedback` under the spec's
equal-length precondition. -/
def spec_evaluate (secret guess : Word) : List Verdict :=
  let start := specPass1 secret guess (initCounts secret)
  specPass2 start.1 guess start.2

/-- The four difficulty names, keys of DIFFICULTY_CONFIG (main.py 31-36). -/
inductive Difficulty
  | easy
  | medium
  | hard
  | extreme
deriving DecidableEq, Repr

/-- One row of DIFFICULTY_CONFIG: word length, max guesses, base points,
example word (main.py lines 31-36). -/
structure DifficultyProfile where
  length : Nat
  max_guesses : Nat
  base_points : Int
  example_word : Word
deriving DecidableEq, Repr

/-- DIFFICULTY_CONFIG of main.py lines 31-36. -/
def DIFFICULTY_CONFIG : Difficulty → DifficultyProfile
  | .easy => ⟨4, 30, 5, strToW "GAME"⟩
  | .medium => ⟨5, 30, 10, strToW "APPLE"⟩
  | .hard => ⟨8, 30, 20, strToW "FOOTBALL"⟩
  | .extreme => ⟨8, 30, 50, strToW "FOOTBALL"⟩

/-- `calculate_points(difficulty, guesses)` of main.py lines 225-231:
base points of the difficulty plus `max(0, 10 - (guesses - 1) * 2)`.
Python ints subtract without truncation, so the argument is `Int`. -/
def calculate_points (difficulty : Difficulty) (guesses : Int) : Int :=
  (DIFFICULTY_CONFIG difficulty).base_points + max 0 (10 - (guesses - 1) * 2)

/-- RAW_WORDS of main.py lines 39-51, verbatim. -/
def RAW_WORDS : List Word := [
  strToW "GAME", strToW "FOUR", strToW "FIRE", strToW "WORD", strToW "PLAY",
  strToW "CODE", strToW "RUNS", strToW "STOP", strToW "LOOK", strToW "CALL",
  strToW "BACK", strToW "BEST", strToW "FAST", strToW "SLOW", strToW "HIGH",
  strToW "LOWS", strToW "OPEN", strToW "CLOS", strToW "READ", strToW "WRIT",
  strToW "BOOK", strToW "PAGE", strToW "LINE", strToW "JUMP", strToW "WALK",
  strToW "TALK", strToW "QUIZ", strToW "TEST", strToW "RAIN", strToW "SNOW",
  strToW "SUNY", strToW "COLD", strToW "HEAT", strToW "WIND", strToW "MIST",
  strToW "DUST", strToW "ROCK", strToW "SAND", strToW "SOIL", strToW "GRAS",
  strToW "TREE", strToW "LEAF", strToW "ROOT", strToW "STEM", strToW "SEED",
  strToW "GROW", strToW "CROP", strToW "FARM",
  strToW "APPLE", strToW "HEART", strToW "WATER", strToW "TABLE", strToW "PLANT",
  strToW "TIGER", strToW "EAGLE", strToW "SNAKE", strToW "WHALE", strToW "ZEBRA",
  strToW "SOUND", strToW "MUSIC", strToW "RADIO", strToW "VOICE", strToW "BEACH",
  strToW "OCEAN", strToW "RIVER", strToW "LAKE", strToW "FIELD", strToW "CABLE",
  strToW "WIRED", strToW "PHONE", strToW "EMAIL", strToW "SCARY", strToW "HAPPY",
  strToW "FUNNY", strToW "SADLY", strToW "ANGER", strToW "BRAVE", strToW "CHAIR",
  strToW "BENCH", strToW "CUPPY", strToW "GLASS", strToW "PLATE", strToW "FORKS",
  strToW "KNIFE", strToW "SPOON", strToW "SUGAR", strToW "SALTZ", strToW "BREAD",
  strToW "CHEES", strToW "MEATS",
  strToW "FOOTBALL", strToW "COMPUTER", strToW "KEYBOARD", strToW "MEMORIZE",
  strToW "INTERNET", strToW "PROGRAMS", strToW "SOFTWARE", strToW "HARDWARE",
  strToW "DATABASE", strToW "ALGORISM", strToW "SECURITY", strToW "PASSWORD",
  strToW "TELEGRAM", strToW "BUSINESS", strToW "FINANCES", strToW "MARKETIN",
  strToW "ADVERTSZ", strToW "STRATEGY", strToW "MANUFACT", strToW "PRODUCTS"]

/-- ASCII letter test: restriction of Python `str.isalpha` to the ASCII
range the word list lives in. -/
def isAlpha (c : Letter) : Bool := (65 ≤ c ∧ c ≤ 90) ∨ (97 ≤ c ∧ c ≤ 122)

/-- The cleaning applied to each raw word (main.py line 55):
`"".join(filter(str.isalpha, word.upper()))`. -/
def clean_word (w : Word) : Word := (upperW w).filter isAlpha

/-- WORDS_BY_LENGTH of main.py lines 53-58, as the lookup function the
dict denotes: every cleaned raw word is appended, in order, to the bucket
of its length, provided that length is at most 8 and is one of the
configured lengths `[c['length'] for c in DIFFICULTY_CONFIG.values()]`
= [4, 5, 8]; for any other length the dict has no key and the lookup
`WORDS_BY_LENGTH.get(length)` yields nothing (modelled by []). -/
def WORDS_BY_LENGTH (n : Nat) : List Word :=
  if n ≤ 8 ∧ (n = 4 ∨ n = 5 ∨ n = 8) then
    (RAW_WORDS.map clean_word).filter (fun w => w.length = n)
  else []

/-- One entry of a session's `guess_history`: main.py line 292 stores the
markdown string made of the feedback blocks and the cleaned guess, whose
data content is exactly this (feedback, guessed word) pair. -/
abbrev HistEntry := List Verdict × Word

/-- The session record stored in the active_games collection: the dict
built at main.py lines 250-256 (the chat_id key added by save_game_state
is the store's lookup key and kept outside the record). -/
structure GameState where
  word : Word
  difficulty : Difficulty
  guesses_made : Nat
  max_guesses : Nat
  guess_history : List HistEntry
deriving DecidableEq, Repr

/-- The active_games collection, keyed by chat_id. -/
def Store := Int → Option GameState

/-- `get_game_state` (main.py lines 162-163). -/
def dbGet (db : Store) (chat_id : Int) : Option GameState := db chat_id

/-- `save_game_state` (main.py lines 165-171): replace-with-upsert of the
record at this chat_id. -/
def dbSave (db : Store) (chat_id : Int) (g : GameState) : Store :=
  fun c => if c = chat_id then some g else db c

/-- `delete_game_state` (main.py lines 173-174). -/
def dbDelete (db : Store) (chat_id : Int) : Store :=
  fun c => if c = chat_id then none else db c

/-- The store with no active games. -/
def dbEmpty : Store := fun _ => none

/-- Outcome part of the message returned by `start_new_game_logic`: either
the "No secret words found" error text (main.py line 245) or the
"New Word Rush Challenge" announcement (lines 259-265), each abstracted
to the data interpolated into it. -/
inductive StartStatus
  | noWords (difficulty : Difficulty) (length : Nat)
  | started (difficulty : Difficulty) (length : Nat)
deriving DecidableEq, Repr

/-- Recognition of the difficulty token (main.py lines 236-238):
lowercase it, and fall back to 'medium' when it is not a key of
DIFFICULTY_CONFIG. -/
def parse_difficulty (tok : Word) : Difficulty :=
  let t := lowerW tok
  if t = strToW "easy" then .easy
  else if t = strToW "medium" then .medium
  else if t = strToW "hard" then .hard
  else if t = strToW "extreme" then .extreme
  else .medium

/-- Body of `start_new_game_logic` (main.py lines 233-265) with the word
pool passed explicitly in place of the module-level WORDS_BY_LENGTH
global, and `random.choice(word_list)` supplied the index `rand` drawn by
the randomness collaborator (any index modulo the pool size can occur).
The database-unavailable early return (line 234) is outside the model:
the store collaborator is assumed present. Returns the (success, message)
pair of the source together with the store after the save. -/
def start_new_game_core (words : Nat → List Word) (db : Store) (chat_id : Int)
    (difficulty : Word) (rand : Nat) : (Bool × StartStatus) × Store :=
  let d := parse_difficulty difficulty
  let config := DIFFICULTY_CONFIG d
  let word_list := words config.length
  if word_list = [] then
    ((false, .noWords d config.length), db)
  else
    let secret_word := word_list.getD (rand % word_list.length) []
    let initial_state : GameState :=
      { word := secret_word, difficulty := d, guesses_made := 0,
        max_guesses := config.max_guesses, guess_history := [] }
    ((true, .started d config.length), dbSave db chat_id initial_state)

/-- `start_new_game_logic` of main.py lines 233-265, over the word pool
built at import time. -/
def start_new_game_logic (db : Store) (chat_id : Int) (difficulty : Word)
    (rand : Nat) : (Bool × StartStatus) × Store :=
  start_new_game_core WORDS_BY_LENGTH db chat_id difficulty rand

/-- Status-message component of the tuple returned by
`process_guess_logic` (main.py lines 267-313), each constructor standing
for one of the distinct message templates of the source, carrying the
data interpolated into it: "No active game." (line 273), the ❌
wrong-length rejection showing `guess.upper()` (line 285), "WIN"
(line 300), the "LOSS_WORD:" prefix followed by the secret (line 309),
and the guesses-left count (line 313). -/
inductive GuessStatus
  | noActiveGame
  | wrongLength (shown : Word)
  | win
  | lossWord (w : Word)
  | guessesLeft (n : Int)
deriving DecidableEq, Repr

/-- The tuple `(feedback, is_win, status, points, guess_history)` returned
by `process_guess_logic`, with the empty feedback string of the early
returns modelled as []. -/
structure GuessResult where
  feedback : List Verdict
  is_win : Bool
  status : GuessStatus
  points : Int
  history : List HistEntry
deriving DecidableEq, Repr

/-- `process_guess_logic(chat_id, guess)` of main.py lines 267-313,
returning the source's result tuple together with the store after its
save/delete calls. The database-unavailable early return (line 269) is
outside the model: the store collaborator is assumed present. -/
def process_guess_logic (db : Store) (chat_id : Int) (guess : Word) :
    GuessResult × Store :=
  match dbGet db chat_id with
  | none => (⟨[], false, .noActiveGame, 0, []⟩, db)
  | some game =>
    let secret_word := game.word
    let guess_clean := upperW guess
    let config := DIFFICULTY_CONFIG game.difficulty
    let length := config.length
    if guess_clean.length ≠ length then
      (⟨[], false, .wrongLength (upperW guess), 0, game.guess_history⟩, db)
    else
      let game1 : GameState := { game with guesses_made := game.guesses_made + 1 }
      let feedback := get_feedback secret_word guess_clean
      let game2 : GameState :=
        { game1 with guess_history := game1.guess_history ++ [(feedback, guess_clean)] }
      if guess_clean = secret_word then
        let points := calculate_points game2.difficulty (game2.guesses_made : Int)
        (⟨feedback, true, .win, points, game2.guess_history⟩, dbDelete db chat_id)
      else
        let remaining : Int := (game2.max_guesses : Int) - (game2.guesses_made : Int)
        if remaining ≤ 0 then
          (⟨feedback, false, .lossWord game2.word, 0, game2.guess_history⟩,
            dbDelete db chat_id)
        else
          (⟨feedback, false, .guessesLeft remaining, 0, game2.guess_history⟩,
            dbSave db chat_id game2)

/-- Folding a sequence of guesses through `process_guess_logic`, keeping
the evolving store. -/
def run_guesses (db : Store) (chat_id : Int) : List Word → Store
  | [] => db
  | g :: gs => run_guesses (process_guess_logic db chat_id g).2 chat_id gs

/-- Decrementing never raises a count. -/
theorem decr_le (rem : Letter → Int) (c x : Letter) : decr rem c x ≤ rem x := by
  simp only [decr]
  split <;> omega

/-- The first pass produces one verdict per secret character. -/
theorem pass1_length (s : Word) : ∀ (g : Word) (rem : Letter → Int),
    (pass1 s g rem).1.length = s.length := by
  induction s with
  | nil => intro g rem; simp [pass1]
  | cons a ss ih =>
    intro g rem
    cases g with
    | nil => simp [pass1, ih]
    | cons b gs =>
      by_cases h : b = a
      · simp [pass1, h, ih]
      · simp [pass1, h, ih]

/-- The first pass only ever decrements counts. -/
theorem pass1_rem_le (s : Word) : ∀ (g : Word) (rem : Letter → Int) (x : Letter),
    (pass1 s g rem).2 x ≤ rem x := by
  induction s with
  | nil => intro g rem x; simp [pass1]
  | cons a ss ih =>
    intro g rem x
    cases g with
    | nil => simpa [pass1] using ih [] rem x
    | cons b gs =>
      by_cases h : b = a
      · subst h
        simp only [pass1, if_pos rfl]
        exact le_trans (ih gs (decr rem b) x) (decr_le rem b x)
      · simpa [pass1, h] using ih gs rem x

/-- On equal-length inputs the source's first pass is the specification's
first pass: the bounds guard `i < len(guess)` never fires. -/
theorem pass1_eq_specPass1 (s : Word) : ∀ (g : Word) (rem : Letter → Int),
    g.length = s.length → pass1 s g rem = specPass1 s g rem := by
  induction s with
  | nil =>
    intro g rem h
    cases g with
    | nil => rfl
    | cons b gs => simp at h
  | cons a ss ih =>
    intro g rem h
    cases g with
    | nil => simp at h
    | cons b gs =>
      simp only [List.length_cons, Nat.add_right_cancel_iff] at h
      by_cases hba : b = a
      · simp [pass1, specPass1, hba, ih gs _ h]
      · simp [pass1, specPass1, hba, ih gs _ h]

/-- The second pass keeps one verdict per input verdict. -/
theorem pass2_length (secret : Word) (fb : List Verdict) :
    ∀ (g : Word) (rem : Letter → Int),
    (pass2 secret fb g rem).length = fb.length := by
  induction fb with
  | nil => intro g rem; simp [pass2]
  | cons f fs ih =>
    intro g rem
    cases g with
    | nil => simp [pass2, ih]
    | cons g0 gs =>
      by_cases hf : f = Verdict.Miss
      · by_cases hc : g0 ∈ secret ∧ 0 < rem g0
        · simp [pass2, hf, hc, ih]
        · simp [pass2, hf, hc, ih]
      · simp [pass2, hf, ih]

/-- With the guess exhausted, the second pass changes nothing. -/
theorem pass2_nil_guess (secret : Word) (fb : List Verdict) (rem : Letter → Int) :
    pass2 secret fb [] rem = fb := by
  induction fb generalizing rem with
  | nil => simp [pass2]
  | cons f fs ih => simp [pass2, ih]

/-- On letters that do not occur in the secret, counts start at 0 and can
only go down, so a positive remaining count certifies membership: under
that invariant the source's second pass (which also tests dict
membership) is the specification's second pass. -/
theorem pass2_eq_specPass2 (secret : Word) (fb : List Verdict) :
    ∀ (g : Word) (rem : Letter → Int), fb.length = g.length →
    (∀ c, c ∉ secret → rem c ≤ 0) →
    pass2 secret fb g rem = specPass2 fb g rem := by
  induction fb with
  | nil =>
    intro g rem hlen hP
    cases g with
    | nil => rfl
    | cons g0 gs => simp at hlen
  | cons f fs ih =>
    intro g rem hlen hP
    cases g with
    | nil => simp at hlen
    | cons g0 gs =>
      simp only [List.length_cons, Nat.add_right_cancel_iff] at hlen
      by_cases hf : f = Verdict.Miss
      · by_cases hpos : 0 < rem g0
        · have hmem : g0 ∈ secret := by
            by_contra hc
            have := hP g0 hc
            omega
          have hP2 : ∀ c, c ∉ secret → decr rem g0 c ≤ 0 :=
            fun c hc => le_trans (decr_le rem g0 c) (hP c hc)
          simp [pass2, specPass2, hf, hpos, hmem, ih gs _ hlen hP2]
        · simp [pass2, specPass2, hf, hpos, ih gs _ hlen hP]
      · simp [pass2, specPass2, hf, ih gs _ hlen hP]

/-- The initial counts vanish off the secret's letters. -/
theorem initCounts_nonpos (secret : Word) (c : Letter) (hc : c ∉ secret) :
    initCounts secret c ≤ 0 := by
  simp [initCounts, List.count_eq_zero_of_not_mem hc]

/-- Beyond the end of the guess, the first pass leaves only 🟥. -/
theorem pass1_drop (s : Word) : ∀ (g : Word) (rem : Letter → Int),
    ((pass1 s g rem).1).drop g.length =
      List.replicate (s.length - g.length) Verdict.Miss := by
  induction s with
  | nil => intro g rem; simp [pass1]
  | cons a ss ih =>
    intro g rem
    cases g with
    | nil =>
      simpa [pass1, List.replicate_succ] using ih [] rem
    | cons b gs =>
      by_cases h : b = a
      · simpa [pass1, h, Nat.succ_sub_succ] using ih gs (decr rem b)
      · simpa [pass1, h, Nat.succ_sub_succ] using ih gs rem

/-- Beyond the end of the guess, the second pass copies its input. -/
theorem pass2_drop (secret : Word) (fb : List Verdict) :
    ∀ (g : Word) (rem : Letter → Int),
    (pass2 secret fb g rem).drop g.length = fb.drop g.length := by
  induction fb with
  | nil => intro g rem; simp [pass2]
  | cons f fs ih =>
    intro g rem
    cases g with
    | nil => simp [pass2_nil_guess]
    | cons g0 gs =>
      by_cases hf : f = Verdict.Miss
      · by_cases hc : g0 ∈ secret ∧ 0 < rem g0
        · simpa [pass2, hf, hc] using ih gs (decr rem g0)
        · simpa [pass2, hf, hc] using ih gs rem
      · simpa [pass2, hf] using ih gs rem

/-- The first pass never reads guess characters past the secret. -/
theorem pass1_take (s : Word) : ∀ (g : Word) (rem : Letter → Int),
    pass1 s (g.take s.length) rem = pass1 s g rem := by
  induction s with
  | nil => intro g rem; cases g <;> simp [pass1]
  | cons a ss ih =>
    intro g rem
    cases g with
    | nil => simp
    | cons b gs =>
      by_cases h : b = a
      · simp [pass1, h, List.take_succ_cons, ih gs]
      · simp [pass1, h, List.take_succ_cons, ih gs]

/-- The second pass never reads guess characters past the feedback. -/
theorem pass2_take (secret : Word) (fb : List Verdict) :
    ∀ (g : Word) (rem : Letter → Int),
    pass2 secret fb (g.take fb.length) rem = pass2 secret fb g rem := by
  induction fb with
  | nil => intro g rem; cases g <;> simp [pass2]
  | cons f fs ih =>
    intro g rem
    cases g with
    | nil => simp
    | cons g0 gs =>
      by_cases hf : f = Verdict.Miss
      · by_cases hc : g0 ∈ secret ∧ 0 < rem g0
        · simp [pass2, hf, hc, List.take_succ_cons, ih gs]
        · simp [pass2, hf, hc, List.take_succ_cons, ih gs]
      · simp [pass2, hf, List.take_succ_cons, ih gs]

/-- C1: for every secret and guess of equal length, the feedback of
`get_feedback` is exactly the result of the specification's two-pass
Wordle algorithm (`spec_evaluate`: Hits first with multiset decrements,
then Present/Miss from the remaining counts), and its length is the
secret's; each position is one of the three `Verdict` values by type.
In particular, secret "APPLE" against guess "PAPER" yields
[Present, Present, Hit, Present, Miss]. -/
theorem c1_feedback_matches_two_pass_spec :
    (∀ secret guess : Word, guess.length = secret.length →
      get_feedback secret guess = spec_evaluate secret guess ∧
      (get_feedback secret guess).length = secret.length) ∧
    get_feedback (strToW "APPLE") (strToW "PAPER") =
      [.Present, .Present, .Hit, .Present, .Miss] := by
  constructor
  · intro secret guess hlen
    constructor
    · have h1 := pass1_eq_specPass1 secret guess (initCounts secret) hlen
      have hfb : (pass1 secret guess (initCounts secret)).1.length = guess.length := by
        rw [pass1_length]; omega
      have hP : ∀ c, c ∉ secret →
          (pass1 secret guess (initCounts secret)).2 c ≤ 0 :=
        fun c hc => le_trans (pass1_rem_le secret guess (initCounts secret) c)
          (initCounts_nonpos secret c hc)
      have h2 := pass2_eq_specPass2 secret
        (pass1 secret guess (initCounts secret)).1 guess
        (pass1 secret guess (initCounts secret)).2 hfb hP
      simp only [get_feedback, spec_evaluate]
      rw [h2, h1]
    · simp only [get_feedback]
      rw [pass2_length, pass1_length]
  · decide

/-- Closed instance of C1's quantified part, at the spec's own worked
example: the evaluator and the spec algorithm agree on APPLE/PAPER. -/
theorem c1_feedback_matches_two_pass_spec_witness :
    get_feedback (strToW "APPLE") (strToW "PAPER") =
      spec_evaluate (strToW "APPLE") (strToW "PAPER") ∧
    (get_feedback (strToW "APPLE") (strToW "PAPER")).length =
      (strToW "APPLE").length :=
  c1_feedback_matches_two_pass_spec.1 (strToW "APPLE") (strToW "PAPER") (by decide)

/-- C9: `get_feedback` is total in the guess length, which the spec leaves
undefined: the feedback always has one verdict per secret character
(no out-of-bounds access is possible in the embedding), the positions
past the guess's end are all 🟥 (Miss), and guess characters past the
secret's end never influence the result. -/
theorem c9_feedback_total_on_mismatched_lengths :
    ∀ secret guess : Word,
    (get_feedback secret guess).length = secret.length ∧
    (get_feedback secret guess).drop guess.length =
      List.replicate (secret.length - guess.length) Verdict.Miss ∧
    get_feedback secret guess = get_feedback secret (guess.take secret.length) := by
  intro secret guess
  refine ⟨?_, ?_, ?_⟩
  · simp only [get_feedback]
    rw [pass2_length, pass1_length]
  · simp only [get_feedback]
    rw [pass2_drop, pass1_drop]
  · simp only [get_feedback]
    rw [pass1_take]
    conv_lhs => rw [← pass2_take secret _ guess]
    rw [pass1_length]

/-- Looking up the chat just saved yields the saved record. -/
theorem dbGet_save_self (db : Store) (chat_id : Int) (g : GameState) :
    dbGet (dbSave db chat_id g) chat_id = some g := by
  simp [dbGet, dbSave]

/-- Looking up the chat just deleted yields nothing. -/
theorem dbGet_delete_self (db : Store) (chat_id : Int) :
    dbGet (dbDelete db chat_id) chat_id = none := by
  simp [dbGet, dbDelete]

/-- Shared shape of the win branch of `process_guess_logic` (main.py
lines 294-300): with an active session whose secret has the configured
length, a guess whose uppercasing is the secret passes the length check,
is counted, scores `calculate_points` at the new guess count, and deletes
the session. -/
theorem process_guess_win_shape (db : Store) (chat_id : Int) (guess : Word)
    (game : GameState) (hdb : dbGet db chat_id = some game)
    (hwl : game.word.length = (DIFFICULTY_CONFIG game.difficulty).length)
    (hwin : upperW guess = game.word) :
    process_guess_logic db chat_id guess =
      (⟨get_feedback game.word game.word, true, .win,
        calculate_points game.difficulty ((game.guesses_made + 1 : Nat) : Int),
        game.guess_history ++ [(get_feedback game.word game.word, game.word)]⟩,
       dbDelete db chat_id) := by
  have hlen : (upperW guess).length = (DIFFICULTY_CONFIG game.difficulty).length := by
    rw [hwin, hwl]
  simp [process_guess_logic, hdb, hwin, hlen, hwl]

/-- C2: with an active session, a guess whose cleaned (uppercased) length
differs from the configured word length is rejected atomically: the store
comes back unchanged (so the stored record, its guess counter and its
history are untouched and no attempt is consumed), and the result is the
wrong-length rejection carrying no feedback, no win and no points, with
the history of the stored session merely displayed. -/
theorem c2_wrong_length_guess_rejected_atomically (db : Store) (chat_id : Int)
    (guess : Word) (game : GameState) (hdb : dbGet db chat_id = some game)
    (hlen : (upperW guess).length ≠ (DIFFICULTY_CONFIG game.difficulty).length) :
    (process_guess_logic db chat_id guess).2 = db ∧
    (process_guess_logic db chat_id guess).1 =
      ⟨[], false, .wrongLength (upperW guess), 0, game.guess_history⟩ ∧
    dbGet (process_guess_logic db chat_id guess).2 chat_id = some game := by
  refine ⟨?_, ?_, ?_⟩ <;> simp [process_guess_logic, hdb, hlen]

/-- Closed instance of C2: guessing "cat" against a 5-letter medium
session leaves the stored session untouched. -/
theorem c2_wrong_length_guess_rejected_atomically_witness :
    (process_guess_logic
        (dbSave dbEmpty 0 ⟨strToW "APPLE", .medium, 3, 30, []⟩) 0 (strToW "cat")).2 =
      dbSave dbEmpty 0 ⟨strToW "APPLE", .medium, 3, 30, []⟩ ∧
    (process_guess_logic
        (dbSave dbEmpty 0 ⟨strToW "APPLE", .medium, 3, 30, []⟩) 0 (strToW "cat")).1 =
      ⟨[], false, .wrongLength (upperW (strToW "cat")), 0, []⟩ ∧
    dbGet (process_guess_logic
        (dbSave dbEmpty 0 ⟨strToW "APPLE", .medium, 3, 30, []⟩) 0 (strToW "cat")).2 0 =
      some ⟨strToW "APPLE", .medium, 3, 30, []⟩ :=
  c2_wrong_length_guess_rejected_atomically
    (dbSave dbEmpty 0 ⟨strToW "APPLE", .medium, 3, 30, []⟩) 0 (strToW "cat")
    ⟨strToW "APPLE", .medium, 3, 30, []⟩ (by decide) (by decide)

/-- C5: with an active session whose secret has the configured length, a
guess equal to the secret always resolves as a win — the win check of the
source (line 295) runs before the guess-exhaustion check (line 305) — so
even when the accepted guess brings the counter to `max_guesses` the
result is the win status with points awarded, never the loss status, and
the session is deleted. -/
theorem c5_winning_guess_beats_exhaustion (db : Store) (chat_id : Int)
    (guess : Word) (game : GameState) (hdb : dbGet db chat_id = some game)
    (hwl : game.word.length = (DIFFICULTY_CONFIG game.difficulty).length)
    (hwin : upperW guess = game.word) :
    (process_guess_logic db chat_id guess).1.is_win = true ∧
    (process_guess_logic db chat_id guess).1.status = .win ∧
    (∀ w : Word, (process_guess_logic db chat_id guess).1.status ≠ .lossWord w) ∧
    (process_guess_logic db chat_id guess).1.points =
      calculate_points game.difficulty ((game.guesses_made + 1 : Nat) : Int) ∧
    dbGet (process_guess_logic db chat_id guess).2 chat_id = none := by
  rw [process_guess_win_shape db chat_id guess game hdb hwl hwin]
  refine ⟨rfl, rfl, fun w => by simp, rfl, dbGet_delete_self db chat_id⟩

/-- Closed instance of C5: with 29 of 30 guesses used, the lowercase
spelling of the secret still wins and ends the session. -/
theorem c5_winning_guess_beats_exhaustion_witness :
    (process_guess_logic
        (dbSave dbEmpty 0 ⟨strToW "APPLE", .medium, 29, 30, []⟩) 0
        (strToW "apple")).1.is_win = true ∧
    (process_guess_logic
        (dbSave dbEmpty 0 ⟨strToW "APPLE", .medium, 29, 30, []⟩) 0
        (strToW "apple")).1.status = .win ∧
    (∀ w : Word, (process_guess_logic
        (dbSave dbEmpty 0 ⟨strToW "APPLE", .medium, 29, 30, []⟩) 0
        (strToW "apple")).1.status ≠ .lossWord w) ∧
    (process_guess_logic
        (dbSave dbEmpty 0 ⟨strToW "APPLE", .medium, 29, 30, []⟩) 0
        (strToW "apple")).1.points =
      calculate_points .medium ((29 + 1 : Nat) : Int) ∧
    dbGet (process_guess_logic
        (dbSave dbEmpty 0 ⟨strToW "APPLE", .medium, 29, 30, []⟩) 0
        (strToW "apple")).2 0 = none :=
  c5_winning_guess_beats_exhaustion
    (dbSave dbEmpty 0 ⟨strToW "APPLE", .medium, 29, 30, []⟩) 0 (strToW "apple")
    ⟨strToW "APPLE", .medium, 29, 30, []⟩ (by decide) (by decide) (by decide)

/-- C4: with an active session, an accepted incorrect guess that brings
the guess counter up to `max_guesses` produces the loss status revealing
the secret word, deletes the session record (so a subsequent lookup of
the chat finds nothing), and a subsequent guess in that chat is answered
as no-active-game with the store untouched. -/
theorem c4_exhausted_session_lost_and_deleted (db : Store) (chat_id : Int)
    (guess : Word) (game : GameState) (hdb : dbGet db chat_id = some game)
    (hlen : (upperW guess).length = (DIFFICULTY_CONFIG game.difficulty).length)
    (hne : upperW guess ≠ game.word)
    (hmax : game.guesses_made + 1 = game.max_guesses) :
    (process_guess_logic db chat_id guess).1.status = .lossWord game.word ∧
    (process_guess_logic db chat_id guess).1.is_win = false ∧
    dbGet (process_guess_logic db chat_id guess).2 chat_id = none ∧
    ∀ g2 : Word,
      (process_guess_logic (process_guess_logic db chat_id guess).2 chat_id g2).1.status =
        .noActiveGame ∧
      (process_guess_logic (process_guess_logic db chat_id guess).2 chat_id g2).2 =
        (process_guess_logic db chat_id guess).2 := by
  have hrem : ((game.max_guesses : Nat) : Int) ≤ ((game.guesses_made : Nat) : Int) + 1 := by
    omega
  have hshape : process_guess_logic db chat_id guess =
      (⟨get_feedback game.word (upperW guess), false, .lossWord game.word, 0,
        game.guess_history ++ [(get_feedback game.word (upperW guess), upperW guess)]⟩,
       dbDelete db chat_id) := by
    simp [process_guess_logic, hdb, hlen, hne, hrem]
  rw [hshape]
  refine ⟨rfl, rfl, dbGet_delete_self db chat_id, fun g2 => ?_⟩
  constructor <;> simp [process_guess_logic, dbGet, dbDelete]

/-- Closed instance of C4: a 30th wrong guess loses, reveals "APPLE",
deletes the session, and the next guess finds no active game. -/
theorem c4_exhausted_session_lost_and_deleted_witness :
    (process_guess_logic (dbSave dbEmpty 0 ⟨strToW "APPLE", .medium, 29, 30, []⟩) 0
        (strToW "HEART")).1.status = .lossWord (strToW "APPLE") ∧
    (process_guess_logic (dbSave dbEmpty 0 ⟨strToW "APPLE", .medium, 29, 30, []⟩) 0
        (strToW "HEART")).1.is_win = false ∧
    dbGet (process_guess_logic (dbSave dbEmpty 0 ⟨strToW "APPLE", .medium, 29, 30, []⟩) 0
        (strToW "HEART")).2 0 = none ∧
    (process_guess_logic
        (process_guess_logic (dbSave dbEmpty 0 ⟨strToW "APPLE", .medium, 29, 30, []⟩) 0
          (strToW "HEART")).2 0 (strToW "WATER")).1.status = .noActiveGame :=
  let h := c4_exhausted_session_lost_and_deleted
    (dbSave dbEmpty 0 ⟨strToW "APPLE", .medium, 29, 30, []⟩) 0 (strToW "HEART")
    ⟨strToW "APPLE", .medium, 29, 30, []⟩ (by decide) (by decide) (by decide) (by decide)
  ⟨h.1, h.2.1, h.2.2.1, (h.2.2.2 (strToW "WATER")).1⟩

/-- C3: the points for a win on guess number k are the difficulty's base
points plus the bonus max(0, 10 - (k - 1) * 2); the bonus never drops the
total below the base points and is non-increasing in k; the win branch of
`process_guess_logic` awards exactly this amount at the incremented guess
count; an easy win on guess 2 awards 5 + 8 = 13. -/
theorem c3_points_base_plus_decaying_bonus :
    (∀ (d : Difficulty) (k : Int), 1 ≤ k →
      calculate_points d k =
        (DIFFICULTY_CONFIG d).base_points + max 0 (10 - (k - 1) * 2) ∧
      (DIFFICULTY_CONFIG d).base_points ≤ calculate_points d k ∧
      ∀ k2 : Int, k ≤ k2 → calculate_points d k2 ≤ calculate_points d k) ∧
    (∀ (db : Store) (chat_id : Int) (guess : Word) (game : GameState),
      dbGet db chat_id = some game →
      game.word.length = (DIFFICULTY_CONFIG game.difficulty).length →
      upperW guess = game.word →
      (process_guess_logic db chat_id guess).1.points =
        (DIFFICULTY_CONFIG game.difficulty).base_points +
          max 0 (10 - (((game.guesses_made + 1 : Nat) : Int) - 1) * 2)) ∧
    calculate_points .easy 2 = 13 := by
  refine ⟨?_, ?_, by decide⟩
  · intro d k hk
    refine ⟨rfl, le_add_of_nonneg_right (le_max_left 0 _), ?_⟩
    intro k2 hk2
    have hmono : 10 - (k2 - 1) * 2 ≤ 10 - (k - 1) * 2 := by omega
    exact add_le_add_left (max_le_max le_rfl hmono) _
  · intro db chat_id guess game hdb hwl hwin
    rw [process_guess_win_shape db chat_id guess game hdb hwl hwin]
    simp [calculate_points]

/-- Closed instance of C3 at difficulty easy and k = 2, including the win
branch of guess processing at guess count 1 + 1. -/
theorem c3_points_base_plus_decaying_bonus_witness :
    calculate_points .easy 2 =
      (DIFFICULTY_CONFIG .easy).base_points + max 0 (10 - (2 - 1) * 2) ∧
    (DIFFICULTY_CONFIG .easy).base_points ≤ calculate_points .easy 2 ∧
    calculate_points .easy 3 ≤ calculate_points .easy 2 ∧
    (process_guess_logic (dbSave dbEmpty 0 ⟨strToW "GAME", .easy, 1, 30, []⟩) 0
        (strToW "game")).1.points =
      (DIFFICULTY_CONFIG .easy).base_points +
        max 0 (10 - (((1 + 1 : Nat) : Int) - 1) * 2) :=
  let h := c3_points_base_plus_decaying_bonus
  ⟨(h.1 .easy 2 (by decide)).1, (h.1 .easy 2 (by decide)).2.1,
   (h.1 .easy 2 (by decide)).2.2 3 (by decide),
   h.2.1 (dbSave dbEmpty 0 ⟨strToW "GAME", .easy, 1, 30, []⟩) 0 (strToW "game")
     ⟨strToW "GAME", .easy, 1, 30, []⟩ (by decide) (by decide) (by decide)⟩

/-- One guess preserves the session invariant guessesMade == len(history)
at this chat: a rejected or no-game guess leaves the store alone, a win
or loss deletes the record, and an accepted ongoing guess increments the
counter and appends exactly one history entry together. -/
theorem process_guess_preserves_invariant (db : Store) (chat_id : Int) (g : Word)
    (hQ : ∀ st : GameState, dbGet db chat_id = some st →
      st.guesses_made = st.guess_history.length) :
    ∀ st : GameState, dbGet (process_guess_logic db chat_id g).2 chat_id = some st →
      st.guesses_made = st.guess_history.length := by
  intro st hst
  cases hdb : dbGet db chat_id with
  | none =>
    simp only [process_guess_logic, hdb] at hst
    cases hst
  | some game =>
    by_cases hlen : (upperW g).length ≠ (DIFFICULTY_CONFIG game.difficulty).length
    · simp only [process_guess_logic, hdb, if_pos hlen, Option.some.injEq] at hst
      subst hst
      exact hQ game hdb
    · by_cases hwin : upperW g = game.word
      · simp only [process_guess_logic, hdb, if_neg hlen, if_pos hwin] at hst
        rw [dbGet_delete_self] at hst
        cases hst
      · by_cases hrem : ((game.max_guesses : Nat) : Int) -
            (((game.guesses_made + 1 : Nat) : Nat) : Int) ≤ 0
        · simp only [process_guess_logic, hdb, if_neg hlen, if_neg hwin,
            if_pos hrem] at hst
          rw [dbGet_delete_self] at hst
          cases hst
        · simp only [process_guess_logic, hdb, if_neg hlen, if_neg hwin,
            if_neg hrem] at hst
          rw [dbGet_save_self] at hst
          cases hst
          simp [hQ game hdb]

/-- Any sequence of guesses preserves the session invariant. -/
theorem run_guesses_preserves_invariant (chat_id : Int) (gs : List Word) :
    ∀ db : Store,
    (∀ st : GameState, dbGet db chat_id = some st →
      st.guesses_made = st.guess_history.length) →
    ∀ st : GameState, dbGet (run_guesses db chat_id gs) chat_id = some st →
      st.guesses_made = st.guess_history.length := by
  induction gs with
  | nil => intro db hQ st hst; exact hQ st hst
  | cons g gs ih =>
    intro db hQ st hst
    exact ih _ (process_guess_preserves_invariant db chat_id g hQ) st hst

/-- Starting a game in a chat with no session establishes the invariant:
the saved record has guessesMade = 0 and an empty history. -/
theorem start_establishes_invariant (db : Store) (chat_id : Int) (tok : Word)
    (rand : Nat) (h0 : dbGet db chat_id = none) :
    ∀ st : GameState,
      dbGet (start_new_game_logic db chat_id tok rand).2 chat_id = some st →
      st.guesses_made = st.guess_history.length := by
  intro st hst
  unfold start_new_game_logic start_new_game_core at hst
  by_cases hw : WORDS_BY_LENGTH (DIFFICULTY_CONFIG (parse_difficulty tok)).length = []
  · simp only [hw, if_pos] at hst
    rw [h0] at hst
    cases hst
  · simp only [if_neg hw] at hst
    rw [dbGet_save_self] at hst
    cases hst
    rfl

/-- C6: after creating a session in a chat with no active game and then
submitting any sequence of guesses (accepted or rejected), any session
record still stored for that chat satisfies
guessesMade == len(guessHistory). -/
theorem c6_guess_count_equals_history_length (db0 : Store) (chat_id : Int)
    (tok : Word) (rand : Nat) (gs : List Word) (game : GameState)
    (h0 : dbGet db0 chat_id = none)
    (hfin : dbGet (run_guesses (start_new_game_logic db0 chat_id tok rand).2
      chat_id gs) chat_id = some game) :
    game.guesses_made = game.guess_history.length :=
  run_guesses_preserves_invariant chat_id gs _
    (start_establishes_invariant db0 chat_id tok rand h0) game hfin

/-- Closed instance of C6: a fresh medium game followed by one accepted
wrong guess stores a session with one guess made and one history entry. -/
theorem c6_guess_count_equals_history_length_witness :
    (⟨strToW "APPLE", .medium, 1, 30,
        [([.Miss, .Present, .Present, .Miss, .Miss], strToW "HEART")]⟩ :
      GameState).guesses_made =
    (⟨strToW "APPLE", .medium, 1, 30,
        [([.Miss, .Present, .Present, .Miss, .Miss], strToW "HEART")]⟩ :
      GameState).guess_history.length :=
  c6_guess_count_equals_history_length dbEmpty 0 (strToW "medium") 0
    [strToW "HEART"]
    ⟨strToW "APPLE", .medium, 1, 30,
      [([.Miss, .Present, .Present, .Miss, .Miss], strToW "HEART")]⟩
    (by decide) (by decide)

/-- Counterexample to C7: the unrecognized difficulty token "banana" does
not fail session creation — `start_new_game_logic` reports success,
announces a started medium game, and stores a fresh session record. -/
theorem c7_counterexample_unrecognized_token_starts_game :
    (start_new_game_logic dbEmpty 0 (strToW "banana") 0).1.1 = true ∧
    (start_new_game_logic dbEmpty 0 (strToW "banana") 0).1.2 =
      .started .medium 5 ∧
    dbGet (start_new_game_logic dbEmpty 0 (strToW "banana") 0).2 0 =
      some ⟨strToW "APPLE", .medium, 0, 30, []⟩ := by
  decide

/-- C7 as amended: a new-game request whose lowercased difficulty token is
none of the four recognized names is not rejected; the token is silently
replaced by 'medium' (main.py lines 237-238) and the request proceeds
exactly as a medium-difficulty request. -/
theorem c7_amended_unrecognized_token_defaults_to_medium (db : Store)
    (chat_id : Int) (tok : Word) (rand : Nat)
    (h1 : lowerW tok ≠ strToW "easy") (h2 : lowerW tok ≠ strToW "medium")
    (h3 : lowerW tok ≠ strToW "hard") (h4 : lowerW tok ≠ strToW "extreme") :
    parse_difficulty tok = .medium ∧
    start_new_game_logic db chat_id tok rand =
      start_new_game_logic db chat_id (strToW "medium") rand := by
  have hp : parse_difficulty tok = .medium := by
    simp [parse_difficulty, h1, h2, h3, h4]
  have hm : parse_difficulty (strToW "medium") = .medium := by decide
  refine ⟨hp, ?_⟩
  unfold start_new_game_logic start_new_game_core
  rw [hp, hm]

/-- Closed instance of the amended C7 at the token "banana". -/
theorem c7_amended_unrecognized_token_defaults_to_medium_witness :
    parse_difficulty (strToW "banana") = .medium ∧
    start_new_game_logic dbEmpty 0 (strToW "banana") 0 =
      start_new_game_logic dbEmpty 0 (strToW "medium") 0 :=
  c7_amended_unrecognized_token_defaults_to_medium dbEmpty 0 (strToW "banana") 0
    (by decide) (by decide) (by decide) (by decide)

/-- Every word in a bucket of WORDS_BY_LENGTH has that bucket's length:
the pool is partitioned by cleaned length. -/
theorem words_by_length_sound (n : Nat) (w : Word)
    (hw : w ∈ WORDS_BY_LENGTH n) : w.length = n := by
  unfold WORDS_BY_LENGTH at hw
  split at hw
  · simpa using (List.mem_filter.mp hw).2
  · cases hw

/-- C8: when the pool for the requested difficulty's configured length is
empty, `start_new_game_core` fails with the no-words-available error and
leaves the store untouched, creating no session; and whenever
`start_new_game_logic` reports success, the stored session's secret comes
from the pool of the configured length, so its length equals the
difficulty's configured word length — the selector never falls back to a
word of a different length. -/
theorem c8_empty_pool_fails_and_selection_matches_length :
    (∀ (words : Nat → List Word) (db : Store) (chat_id : Int) (tok : Word)
        (rand : Nat),
      words (DIFFICULTY_CONFIG (parse_difficulty tok)).length = [] →
      start_new_game_core words db chat_id tok rand =
        ((false, .noWords (parse_difficulty tok)
          (DIFFICULTY_CONFIG (parse_difficulty tok)).length), db)) ∧
    (∀ (db : Store) (chat_id : Int) (tok : Word) (rand : Nat) (g : GameState),
      (start_new_game_logic db chat_id tok rand).1.1 = true →
      dbGet (start_new_game_logic db chat_id tok rand).2 chat_id = some g →
      g.word ∈ WORDS_BY_LENGTH (DIFFICULTY_CONFIG (parse_difficulty tok)).length ∧
      g.word.length = (DIFFICULTY_CONFIG (parse_difficulty tok)).length ∧
      g.guesses_made = 0 ∧ g.guess_history = []) := by
  constructor
  · intro words db chat_id tok rand hempty
    unfold start_new_game_core
    simp [hempty]
  · intro db chat_id tok rand g hsucc hg
    unfold start_new_game_logic start_new_game_core at hsucc hg
    by_cases hw : WORDS_BY_LENGTH (DIFFICULTY_CONFIG (parse_difficulty tok)).length = []
    · simp [hw] at hsucc
    · simp only [if_neg hw] at hg
      rw [dbGet_save_self, Option.some.injEq] at hg
      subst hg
      have hlt : rand % (WORDS_BY_LENGTH
          (DIFFICULTY_CONFIG (parse_difficulty tok)).length).length <
          (WORDS_BY_LENGTH (DIFFICULTY_CONFIG (parse_difficulty tok)).length).length :=
        Nat.mod_lt _ (List.length_pos.mpr hw)
      have hmem : (WORDS_BY_LENGTH
          (DIFFICULTY_CONFIG (parse_difficulty tok)).length).getD
            (rand % (WORDS_BY_LENGTH
              (DIFFICULTY_CONFIG (parse_difficulty tok)).length).length) [] ∈
          WORDS_BY_LENGTH (DIFFICULTY_CONFIG (parse_difficulty tok)).length := by
        simp only [List.getD_eq_getElem?_getD, List.getElem?_eq_getElem hlt,
          Option.getD_some]
        exact List.getElem_mem hlt
      exact ⟨hmem, words_by_length_sound _ _ hmem, rfl, rfl⟩

/-- Closed instance of C8: an injected empty pool makes the easy request
fail without touching the store, while the real medium pool yields the
stored secret "APPLE" of length 5 in a fresh session. -/
theorem c8_empty_pool_fails_and_selection_matches_length_witness :
    start_new_game_core (fun _ => []) dbEmpty 0 (strToW "easy") 0 =
      ((false, .noWords .easy 4), dbEmpty) ∧
    ((strToW "APPLE" : Word) ∈ WORDS_BY_LENGTH 5 ∧
      (strToW "APPLE" : Word).length = 5 ∧
      (0 : Nat) = 0 ∧ ([] : List HistEntry) = []) :=
  ⟨c8_empty_pool_fails_and_selection_matches_length.1 (fun _ => []) dbEmpty 0
      (strToW "easy") 0 rfl,
   c8_empty_pool_fails_and_selection_matches_length.2 dbEmpty 0
      (strToW "medium") 0 ⟨strToW "APPLE", .medium, 0, 30, []⟩
      (by decide) (by decide)⟩

/-- Uppercasing is idempotent on character codes: an ASCII lowercase
letter maps into the uppercase range, everything else is fixed. -/
theorem upperC_idem (c : Nat) : upperC (upperC c) = upperC c := by
  unfold upperC
  split_ifs <;> omega

/-- Uppercasing a word is idempotent. -/
theorem upperW_idem (w : Word) : upperW (upperW w) = upperW w := by
  induction w with
  | nil => rfl
  | cons c cs ih =>
    simp only [upperW, List.map_cons] at ih ⊢
    rw [upperC_idem, ih]

/-- C10: guess processing is case-insensitive — the source uppercases the
guess before every use (main.py line 277), so any guess produces exactly
the same result tuple and store as its uppercased form; in particular the
lowercase spelling "apple" of the secret "APPLE" wins the game. -/
theorem c10_guess_processing_case_insensitive :
    (∀ (db : Store) (chat_id : Int) (guess : Word),
      process_guess_logic db chat_id guess =
        process_guess_logic db chat_id (upperW guess)) ∧
    (process_guess_logic (dbSave dbEmpty 0 ⟨strToW "APPLE", .medium, 0, 30, []⟩)
        0 (strToW "apple")).1.is_win = true ∧
    process_guess_logic (dbSave dbEmpty 0 ⟨strToW "APPLE", .medium, 0, 30, []⟩)
        0 (strToW "apple") =
      process_guess_logic (dbSave dbEmpty 0 ⟨strToW "APPLE", .medium, 0, 30, []⟩)
        0 (strToW "APPLE") := by
  have main : ∀ (db : Store) (chat_id : Int) (guess : Word),
      process_guess_logic db chat_id guess =
        process_guess_logic db chat_id (upperW guess) := by
    intro db chat_id guess
    unfold process_guess_logic
    rw [upperW_idem]
  refine ⟨main, by decide, ?_⟩
  rw [main (dbSave dbEmpty 0 ⟨strToW "APPLE", .medium, 0, 30, []⟩) 0
    (strToW "apple")]
  have hup : upperW (strToW "apple") = strToW "APPLE" := by decide
  rw [hup]
